import Mathlib

/-
Verification of the `structur` schema-view generator (src/src/lib.rs).

The generator is a Rust procedural macro. We embed it shallowly:
  * `syn::Ident` becomes `Ident` (a name plus a source span modelled as a `Nat`);
  * `syn::Error` / the emitted `compile_error!` token streams become `Diagnostic`
    lists (a message at a span);
  * `syn::Type` and `syn::Visibility` are opaque to the generator and are
    modelled as plain strings;
  * Rust's `HashMap` is modelled as an insertion-ordered association list with
    overwrite-on-insert; no claim below depends on iteration order;
  * a Rust panic (from `unwrap()`) is the `panics` outcome of `POut`;
  * `Result` collection over iterators (`collect::<Result<Vec<_>, _>>`), which
    stops at the first error, becomes explicit short-circuiting recursion.
-/

namespace Structur

/-- Mirrors `syn::Ident`: an identifier carrying its source span. -/
structure Ident where
  name : String
  span : Nat
deriving DecidableEq, Repr

/-- Mirrors `syn::Error` (and the `compile_error!` stream it expands to):
a message located at a span. -/
structure Diagnostic where
  span : Nat
  msg : String
deriving DecidableEq, Repr

/-- Mirrors `enum Modifier` (lib.rs lines 55-59). -/
inductive Modifier where
  | Hide (i : Ident)
  | Show (i : Ident)
  | Optional (i : Ident)
deriving DecidableEq, Repr

/-- Mirrors `Modifier::name` (lib.rs lines 61-67). -/
def Modifier.name : Modifier → String
  | .Hide i => i.name
  | .Show i => i.name
  | .Optional i => i.name

/-- Mirrors `Modifier::name_id` (lib.rs lines 68-74). -/
def Modifier.name_id : Modifier → Ident
  | .Hide i => i
  | .Show i => i
  | .Optional i => i

/-- Mirrors `struct ModifierInfo` (lib.rs lines 76-81). -/
structure ModifierInfo where
  has_hide : Bool
  has_show : Bool
  has_option : Bool
deriving DecidableEq, Repr

/-- Mirrors `symbol_mods` (lib.rs lines 83-99): the three flags accumulated
over the field's modifier list, restricted to the view-pseudonym `id`. -/
def symbol_mods (mods : List Modifier) (id : String) : ModifierInfo :=
  mods.foldl
    (fun acc mo =>
      match mo with
      | .Hide i => if i.name = id then ⟨true, acc.has_show, acc.has_option⟩ else acc
      | .Show i => if i.name = id then ⟨acc.has_hide, true, acc.has_option⟩ else acc
      | .Optional i => if i.name = id then ⟨acc.has_hide, acc.has_show, true⟩ else acc)
    ⟨false, false, false⟩

/-- Mirrors `enum VisDefault` (lib.rs lines 101-105). -/
inductive VisDefault where
  | Hide
  | Show
deriving DecidableEq, Repr

/-- Mirrors `struct Entry` (lib.rs lines 107-113): one parsed field. -/
structure Entry where
  modifiers : List Modifier
  name : Ident
  typ : String
  vis : String
  default_show : VisDefault
deriving DecidableEq, Repr

/-- Mirrors the local `struct F` inside `validate_modifiers` (lib.rs 116-119). -/
structure F where
  a : ModifierInfo
  b : Ident
deriving DecidableEq, Repr

/-- Association-list lookup, modelling `HashMap::get`. -/
def lookupF : List (String × F) → String → Option F
  | [], _ => none
  | (k, f) :: rest, n => if k = n then some f else lookupF rest n

/-- The flag update performed on `h.get_mut(&name).unwrap()` (lib.rs 138-142). -/
def setFlag (m : Modifier) (f : F) : F :=
  match m with
  | .Hide _ => ⟨⟨true, f.a.has_show, f.a.has_option⟩, f.b⟩
  | .Show _ => ⟨⟨f.a.has_hide, true, f.a.has_option⟩, f.b⟩
  | .Optional _ => ⟨⟨f.a.has_hide, f.a.has_show, true⟩, f.b⟩

/-- One iteration of the `for_each` in `validate_modifiers` (lib.rs 122-143):
insert a fresh all-false entry keyed by the modifier's pseudonym when absent
(remembering the first `Ident` carrying that pseudonym), then set the flag of
the modifier's category. -/
def updateH (h : List (String × F)) (m : Modifier) : List (String × F) :=
  let h' := if (lookupF h m.name).isNone
    then h ++ [(m.name, ⟨⟨false, false, false⟩, m.name_id⟩)]
    else h
  h'.map (fun kv => if kv.1 = m.name then (kv.1, setFlag m kv.2) else kv)

/-- The per-pseudonym table `h` built by `validate_modifiers` (lib.rs 120-143). -/
def buildH (mods : List Modifier) : List (String × F) :=
  mods.foldl updateH []

/-- Message of lib.rs line 151. -/
def showHideMsg (n : String) : String :=
  "Conflicting declarations of `show` and `hide` for " ++ n

/-- Message of lib.rs line 156. -/
def hideOptionalMsg (n : String) : String :=
  "Conflicting declarations of \x27hide\x27 and \x27optional\x27 for " ++ n

/-- The per-pseudonym conflict test of `validate_modifiers` (lib.rs 145-162). -/
def conflictErr (kv : String × F) : Option Diagnostic :=
  if kv.2.a.has_show && kv.2.a.has_hide then
    some ⟨kv.2.b.span, showHideMsg kv.1⟩
  else if kv.2.a.has_hide && kv.2.a.has_option then
    some ⟨kv.2.b.span, hideOptionalMsg kv.1⟩
  else none

/-- Mirrors `validate_modifiers` (lib.rs 115-172). -/
def validate_modifiers (mods : List Modifier) : Except (List Diagnostic) Unit :=
  let errors := (buildH mods).filterMap conflictErr
  if errors.length ≠ 0 then .error errors else .ok ()

/-- Mirrors `struct ParseModifiers` (lib.rs 174-177). -/
structure ParseModifiers where
  default_vis : VisDefault
  mods : List Modifier
deriving DecidableEq, Repr

/-- Mirrors the `syn::Meta` shapes `parse_modifiers` distinguishes: a meta
list (a path plus nested paths, each a non-empty segment sequence), or any
other meta shape. -/
inductive AttrMeta where
  | list (path : List Ident) (nested : List (List Ident))
  | otherMeta
deriving DecidableEq, Repr

/-- Mirrors `syn::Attribute`: the `#` token's span plus the meta. -/
structure Attr where
  poundSpan : Nat
  meta : AttrMeta
deriving DecidableEq, Repr

/-- Mirrors `syn::Field`: `ident` is `none` for unnamed (tuple-struct) fields. -/
structure Field where
  ident : Option Ident
  typ : String
  vis : String
  attrs : List Attr
deriving DecidableEq, Repr

/-- Outcome of a Rust computation that can panic (`unwrap()` on a failed
parse), return an error token stream, or succeed. -/
inductive POut (α : Type) where
  | panics
  | errs (e : List Diagnostic)
  | ok (a : α)
deriving DecidableEq, Repr

/-- Span at which `c.error(...)` reports a nested-meta problem: the start of
the offending path. -/
def nestedSpan : List Ident → Nat
  | [] => 0
  | s :: _ => s.span

/-- Mirrors the `parse_nested_meta` closure (lib.rs 190-197): collect the
single-segment nested identifiers in order; the first multi-segment path
aborts with "Expected single-segment identifier". -/
def collectNames : List (List Ident) → Except Diagnostic (List Ident)
  | [] => .ok []
  | segs :: rest =>
    match segs with
    | [s] =>
      match collectNames rest with
      | .error e => .error e
      | .ok ns => .ok (s :: ns)
    | _ => .error ⟨nestedSpan segs, "Expected single-segment identifier"⟩

/-- The mutable state of the attribute loop in `parse_modifiers`
(lib.rs 180-183): accumulated modifiers, current default visibility, and
whether an explicit hide/show override was seen. -/
structure PState where
  ret : List Modifier
  def_vis : VisDefault
  has_explicit_vis : Bool
deriving DecidableEq, Repr

/-- Message of lib.rs lines 204 and 219 (spelling as in the source). -/
def dblMsg : String := "Double visibilty overrides are not allowed"

/-- Message of lib.rs line 238. -/
def unsupportedMsg : String :=
  "Unsupported modifier, expected one of: `show`, `hide`, `optional`"

/-- Message of lib.rs line 248. -/
def metaListMsg : String := "Expected meta list Foo(a, b, c)"

/-- One iteration of the attribute loop of `parse_modifiers` (lib.rs 185-253).
`l.path.get_ident().unwrap()` panics when the attribute path is not a single
identifier; nested-meta errors are raised before the category dispatch. -/
def parseStep (st : PState) (attr : Attr) : POut PState :=
  match attr.meta with
  | .list path nested =>
    match path with
    | [id] =>
      match collectNames nested with
      | .error e => .errs [e]
      | .ok names =>
        if id.name = "hide" then
          if st.has_explicit_vis = true ∧ st.def_vis = VisDefault.Hide then
            .errs [⟨id.span, dblMsg⟩]
          else
            .ok ⟨st.ret ++ names.map (fun n => Modifier.Hide n), VisDefault.Show, true⟩
        else if id.name = "show" then
          if st.has_explicit_vis = true ∧ st.def_vis = VisDefault.Show then
            .errs [⟨id.span, dblMsg⟩]
          else
            .ok ⟨st.ret ++ names.map (fun n => Modifier.Show n), VisDefault.Hide, true⟩
        else if id.name = "optional" then
          .ok ⟨st.ret ++ names.map (fun n => Modifier.Optional n), st.def_vis, st.has_explicit_vis⟩
        else
          .errs [⟨id.span, unsupportedMsg⟩]
    | _ => .panics
  | .otherMeta => .errs [⟨attr.poundSpan, metaListMsg⟩]

/-- The attribute loop of `parse_modifiers`, threading the state. -/
def parseAttrs (st : PState) : List Attr → POut PState
  | [] => .ok st
  | a :: rest =>
    match parseStep st a with
    | .panics => .panics
    | .errs e => .errs e
    | .ok st' => parseAttrs st' rest

/-- Initial loop state of `parse_modifiers` (lib.rs 180-183). -/
def pstateInit : PState := ⟨[], VisDefault.Show, false⟩

/-- Mirrors `parse_modifiers` (lib.rs 179-264). -/
def parse_modifiers (field : Field) : POut ParseModifiers :=
  match parseAttrs pstateInit field.attrs with
  | .panics => .panics
  | .errs e => .errs e
  | .ok st => .ok ⟨st.def_vis, st.ret⟩

/-- The per-modifier undeclared-reference test in `structur` (lib.rs 285-309). -/
def undeclaredCheck (names : List String) (m : Modifier) : Option Diagnostic :=
  let err : Option Ident :=
    match m with
    | .Hide n => if names.contains n.name then none else some n
    | .Show n => if names.contains n.name then none else some n
    | .Optional n => if names.contains n.name then none else some n
  match err with
  | some id => some ⟨id.span, "Undeclared struct " ++ id.name⟩
  | none => none

/-- The per-field closure of the first phase of `structur` (lib.rs 279-322):
unwrap the field name (panicking on an unnamed field), parse the modifiers,
then report the batch of undeclared references, or build the `Entry`. -/
def processField (names : List String) (field : Field) : POut Entry :=
  match field.ident with
  | none => .panics
  | some name =>
    match parse_modifiers field with
    | .panics => .panics
    | .errs e => .errs e
    | .ok mods =>
      let errors := mods.mods.filterMap (undeclaredCheck names)
      if errors.length ≠ 0 then .errs errors
      else .ok ⟨mods.mods, name, field.typ, field.vis, mods.default_vis⟩

/-- The `collect::<Result<Vec<Entry>, _>>` over the fields (lib.rs 276-323):
sequential in declaration order, stopping at the first failing field. -/
def processFields (names : List String) : List Field → POut (List Entry)
  | [] => .ok []
  | f :: rest =>
    match processField names f with
    | .panics => .panics
    | .errs e => .errs e
    | .ok entry =>
      match processFields names rest with
      | .panics => .panics
      | .errs e => .errs e
      | .ok entries => .ok (entry :: entries)

/-- The type position of an emitted field: the original type `#ty`, or its
optional wrapping `Option<#ty>` (lib.rs 343-345). -/
inductive EmittedTy where
  | orig (t : String)
  | optionOf (t : String)
deriving DecidableEq, Repr

/-- One emitted field row `#vis #name : ...,` of a generated view. -/
structure ViewField where
  vis : String
  name : Ident
  ty : EmittedTy
deriving DecidableEq, Repr

/-- The body of the per-field `filter_map` closure during emission
(lib.rs 332-355): re-validate, then decide inclusion for this pseudonym. -/
def emitField (pseudo_name : String) (field : Entry) :
    Except (List Diagnostic) (Option ViewField) :=
  match validate_modifiers field.modifiers with
  | .error e => .error e
  | .ok _ =>
    let modifiers := symbol_mods field.modifiers pseudo_name
    if modifiers.has_hide then .ok none
    else if modifiers.has_option then
      .ok (some ⟨field.vis, field.name, .optionOf field.typ⟩)
    else if modifiers.has_show then
      .ok (some ⟨field.vis, field.name, .orig field.typ⟩)
    else
      match field.default_show with
      | .Hide => .ok none
      | .Show => .ok (some ⟨field.vis, field.name, .orig field.typ⟩)

/-- The `filter_map ... collect::<Result<Vec<_>, _>>` over fields during the
emission of one view (lib.rs 330-356): field order preserved, first failing
field short-circuits. -/
def collectFields (pseudo_name : String) : List Entry → Except (List Diagnostic) (List ViewField)
  | [] => .ok []
  | f :: rest =>
    match emitField pseudo_name f with
    | .error e => .error e
    | .ok none => collectFields pseudo_name rest
    | .ok (some vf) =>
      match collectFields pseudo_name rest with
      | .error e => .error e
      | .ok vfs => .ok (vf :: vfs)

/-- One generated view definition (lib.rs 363-368): the schema's pass-through
attributes and record visibility, the generated name, and the surviving rows. -/
structure ViewStruct where
  attrs : List String
  vis : String
  name : String
  fields : List ViewField
deriving DecidableEq, Repr

/-- Mirrors `syn::ItemStruct` as used by `structur`: pass-through attributes
(opaque), record visibility (opaque), name, and the ordered field list. -/
structure ItemStruct where
  attrs : List String
  vis : String
  name : String
  fields : List Field
deriving DecidableEq, Repr

/-- The emission of one view (lib.rs 329-372): either the view struct or the
error token stream that replaces it. -/
def emitView (parsed : ItemStruct) (fields : List Entry)
    (pseudo_name generated_name : String) : Sum (List Diagnostic) ViewStruct :=
  match collectFields pseudo_name fields with
  | .error e => .inl e
  | .ok source => .inr ⟨parsed.attrs, parsed.vis, generated_name, source⟩

/-- Tokens of the attribute-argument stream parsed by `AttrArg` (lib.rs 30-53). -/
inductive Token where
  | ident (s : String)
  | eq
  | comma
  | other
deriving DecidableEq, Repr

/-- `HashMap::insert`: overwrite the value when the key is present, otherwise
add the pair (we keep insertion order; no claim depends on iteration order). -/
def insertMap (m : List (String × String)) (k v : String) : List (String × String) :=
  if (m.lookup k).isNone then m ++ [(k, v)]
  else m.map (fun kv => if kv.1 = k then (kv.1, v) else kv)

/-- The parse loop of `AttrArg` (lib.rs 34-49): `ident = ident` pairs
separated by commas; the loop ends at end of input or after a pair not
followed by a comma, leaving the rest unconsumed. -/
def parseAttrArgLoop : List Token → List (String × String) →
    Except Unit (List (String × String) × List Token)
  | [], m => .ok (m, [])
  | .ident a :: .eq :: .ident b :: .comma :: rest, m =>
    parseAttrArgLoop rest (insertMap m a b)
  | .ident a :: .eq :: .ident b :: rest, m => .ok (insertMap m a b, rest)
  | _, _ => .error ()

/-- `syn::parse::<AttrArg>`: the loop must consume the whole stream. -/
def parseAttrArg (toks : List Token) : Except Unit (List (String × String)) :=
  match parseAttrArgLoop toks [] with
  | .error e => .error e
  | .ok (m, rem) => if rem.isEmpty then .ok m else .error ()

/-- The macro's item input: a struct, or any other item shape (which
`syn::parse::<syn::ItemStruct>` rejects). -/
inductive Item where
  | structItem (s : ItemStruct)
  | otherItem
deriving DecidableEq, Repr

/-- `syn::parse::<syn::ItemStruct>` (lib.rs 271). -/
def parseItemStruct : Item → Except Unit ItemStruct
  | .structItem s => .ok s
  | .otherItem => .error ()

/-- The macro's output token stream: either the phase-one error stream
(lib.rs 380), or one entry per declared mapping, each a view struct or the
error stream replacing it (lib.rs 327-378). -/
inductive Output where
  | errs (e : List Diagnostic)
  | items (xs : List (Sum (List Diagnostic) ViewStruct))
deriving DecidableEq, Repr

/-- Mirrors `structur` (lib.rs 270-382). The two `unwrap()` calls on the item
and argument parses panic on failure. -/
def structur (args : List Token) (item : Item) : POut Output :=
  match parseItemStruct item with
  | .error _ => .panics
  | .ok parsed =>
    match parseAttrArg args with
    | .error _ => .panics
    | .ok mappings =>
      let names := mappings.map Prod.fst
      match processFields names parsed.fields with
      | .panics => .panics
      | .errs e => .ok (.errs e)
      | .ok fields =>
        .ok (.items (mappings.map (fun pg => emitView parsed fields pg.1 pg.2)))

instance {ε α : Type} [DecidableEq ε] [DecidableEq α] : DecidableEq (Except ε α)
  | .error a, .error b =>
    if h : a = b then isTrue (congrArg Except.error h)
    else isFalse (fun hc => h (Except.error.inj hc))
  | .error _, .ok _ => isFalse (fun hc => Except.noConfusion hc)
  | .ok _, .error _ => isFalse (fun hc => Except.noConfusion hc)
  | .ok a, .ok b =>
    if h : a = b then isTrue (congrArg Except.ok h)
    else isFalse (fun hc => h (Except.ok.inj hc))

/-- The resolution cascade exactly as spec section 4.3 orders it: Optional
first, then Hide, then Show, then DefaultPolicy. (The code tests Hide first;
the two agree on every validated directive set.) -/
def specResolve (pseudo_name : String) (field : Entry) : Option ViewField :=
  let m := symbol_mods field.modifiers pseudo_name
  if m.has_option then some ⟨field.vis, field.name, .optionOf field.typ⟩
  else if m.has_hide then none
  else if m.has_show then some ⟨field.vis, field.name, .orig field.typ⟩
  else
    match field.default_show with
    | .Hide => none
    | .Show => some ⟨field.vis, field.name, .orig field.typ⟩

/-- The step function of `symbol_mods`, named for reuse in proofs. -/
def symStep (id : String) (acc : ModifierInfo) (mo : Modifier) : ModifierInfo :=
  match mo with
  | .Hide i => if i.name = id then ⟨true, acc.has_show, acc.has_option⟩ else acc
  | .Show i => if i.name = id then ⟨acc.has_hide, true, acc.has_option⟩ else acc
  | .Optional i => if i.name = id then ⟨acc.has_hide, acc.has_show, true⟩ else acc

lemma symbol_mods_eq_foldl (mods : List Modifier) (id : String) :
    symbol_mods mods id = mods.foldl (symStep id) ⟨false, false, false⟩ := rfl

/-- The effect of one modifier on the flag triple for its own pseudonym. -/
def flagStep (m : Modifier) (i : ModifierInfo) : ModifierInfo :=
  match m with
  | .Hide _ => ⟨true, i.has_show, i.has_option⟩
  | .Show _ => ⟨i.has_hide, true, i.has_option⟩
  | .Optional _ => ⟨i.has_hide, i.has_show, true⟩

lemma symStep_eq_flag (id : String) (acc : ModifierInfo) (mo : Modifier) :
    symStep id acc mo = if mo.name = id then flagStep mo acc else acc := by
  cases mo <;> rfl

lemma setFlag_a (m : Modifier) (f : F) : (setFlag m f).a = flagStep m f.a := by
  cases m <;> rfl

/-- The flag triple recorded for pseudonym `id` in the table `h`
(all-false when `id` has no entry). -/
def infoOf (h : List (String × F)) (id : String) : ModifierInfo :=
  match lookupF h id with
  | some f => f.a
  | none => ⟨false, false, false⟩

lemma lookupF_append (h₁ h₂ : List (String × F)) (n : String) :
    lookupF (h₁ ++ h₂) n =
      match lookupF h₁ n with
      | some f => some f
      | none => lookupF h₂ n := by
  induction h₁ with
  | nil => simp [lookupF]
  | cons kv rest ih =>
    obtain ⟨k, f⟩ := kv
    by_cases hk : k = n <;> simp [lookupF, hk, ih]

lemma lookupF_mapKey (h : List (String × F)) (n q : String) (g : F → F) :
    lookupF (h.map (fun kv => if kv.1 = n then (kv.1, g kv.2) else kv)) q =
      if q = n then (lookupF h q).map g else lookupF h q := by
  induction h with
  | nil => simp [lookupF]
  | cons kv rest ih =>
    obtain ⟨k, f⟩ := kv
    simp only [List.map_cons]
    by_cases hkn : k = n
    · rw [if_pos hkn]
      by_cases hkq : k = q
      · subst hkq; subst hkn
        simp [lookupF]
      · simp only [lookupF, if_neg hkq, ih]
    · rw [if_neg hkn]
      by_cases hkq : k = q
      · subst hkq
        simp [lookupF, hkn]
      · simp only [lookupF, if_neg hkq, ih]

lemma lookupF_mem (h : List (String × F)) (n : String) (f : F)
    (hl : lookupF h n = some f) : (n, f) ∈ h := by
  induction h with
  | nil => simp [lookupF] at hl
  | cons kv rest ih =>
    obtain ⟨k, f'⟩ := kv
    by_cases hk : k = n
    · subst hk
      simp [lookupF] at hl
      subst hl
      exact List.mem_cons_self _ _
    · simp [lookupF, hk] at hl
      exact List.mem_cons_of_mem _ (ih hl)

lemma lookupF_updateH (h : List (String × F)) (m : Modifier) (id : String) :
    lookupF (updateH h m) id =
      if m.name = id then
        some (setFlag m ((lookupF h id).getD ⟨⟨false, false, false⟩, m.name_id⟩))
      else lookupF h id := by
  unfold updateH
  rw [lookupF_mapKey]
  by_cases hmn : m.name = id
  · rw [if_pos hmn.symm, if_pos hmn]
    by_cases hn : (lookupF h m.name).isNone = true
    · rw [if_pos hn, lookupF_append]
      have hid : lookupF h id = none := by
        rw [← hmn]; exact Option.isNone_iff_eq_none.mp hn
      rw [hid]
      simp [lookupF, hmn]
    · rw [if_neg hn]
      have hex : ∃ f, lookupF h id = some f := by
        rw [← hmn]
        cases hx : lookupF h m.name with
        | none => rw [hx] at hn; simp at hn
        | some f => exact ⟨f, rfl⟩
      obtain ⟨f, hf⟩ := hex
      rw [hf]
      simp
  · rw [if_neg (fun hq => hmn hq.symm), if_neg hmn]
    by_cases hn : (lookupF h m.name).isNone = true
    · rw [if_pos hn, lookupF_append]
      cases hl : lookupF h id with
      | none => simp [lookupF, hmn]
      | some f => simp
    · rw [if_neg hn]

lemma infoOf_updateH (h : List (String × F)) (m : Modifier) (id : String) :
    infoOf (updateH h m) id =
      if m.name = id then flagStep m (infoOf h id) else infoOf h id := by
  unfold infoOf
  rw [lookupF_updateH]
  by_cases hmn : m.name = id
  · rw [if_pos hmn, if_pos hmn]
    cases hl : lookupF h id with
    | none => simp [setFlag_a]
    | some f => simp [setFlag_a]
  · rw [if_neg hmn, if_neg hmn]

lemma infoOf_foldl (mods : List Modifier) (id : String) :
    ∀ h : List (String × F),
      infoOf (mods.foldl updateH h) id = mods.foldl (symStep id) (infoOf h id) := by
  induction mods with
  | nil => intro h; rfl
  | cons m rest ih =>
    intro h
    simp only [List.foldl_cons]
    rw [ih (updateH h m), infoOf_updateH, symStep_eq_flag]

lemma infoOf_buildH (mods : List Modifier) (id : String) :
    infoOf (buildH mods) id = symbol_mods mods id := by
  rw [symbol_mods_eq_foldl, buildH, infoOf_foldl]
  rfl

lemma validate_ok_iff (mods : List Modifier) :
    validate_modifiers mods = .ok () ↔ ∀ kv ∈ buildH mods, conflictErr kv = none := by
  rw [← List.filterMap_eq_nil_iff (f := conflictErr) (l := buildH mods)]
  unfold validate_modifiers
  constructor
  · intro hok
    by_contra hne
    have hlen : ((buildH mods).filterMap conflictErr).length ≠ 0 := by
      intro h0
      exact hne (List.length_eq_zero.mp h0)
    rw [if_pos hlen] at hok
    exact Except.noConfusion hok
  · intro hnil
    rw [hnil]
    simp

/-- A validated directive set never carries both Hide and Optional (nor both
Hide and Show) for the same pseudonym. -/
lemma validate_ok_no_conflict (mods : List Modifier) (p : String)
    (hv : validate_modifiers mods = .ok ()) :
    ¬((symbol_mods mods p).has_hide = true ∧
      ((symbol_mods mods p).has_option = true ∨ (symbol_mods mods p).has_show = true)) := by
  rintro ⟨hh, hrest⟩
  have hinfo := infoOf_buildH mods p
  cases hl : lookupF (buildH mods) p with
  | none =>
    simp only [infoOf, hl] at hinfo
    rw [← hinfo] at hh
    simp at hh
  | some f =>
    simp only [infoOf, hl] at hinfo
    have hmem := lookupF_mem _ _ _ hl
    have hnone := (validate_ok_iff mods).mp hv _ hmem
    have hfh : f.a.has_hide = true := by rw [hinfo]; exact hh
    rcases hrest with ho | hs
    · have hfo : f.a.has_option = true := by rw [hinfo]; exact ho
      by_cases hsh : f.a.has_show = true
      · simp [conflictErr, hfh, hsh] at hnone
      · simp [conflictErr, hfh, hfo, hsh] at hnone
    · have hfs : f.a.has_show = true := by rw [hinfo]; exact hs
      simp [conflictErr, hfh, hfs] at hnone

/-- Claim C1: for every field whose DirectiveSet passed validation and every
declared view pseudonym, the emitted inclusion of the field is decided by the
cascade Optional (wrap as optional, taking precedence over DefaultPolicy),
else Hide (omit), else Show (include with original type), else DefaultPolicy
(Show includes, Hide omits) — i.e. the code's per-field emission agrees with
the spec's resolution order on every validated directive set. -/
theorem C1_emission_cascade (field : Entry) (pseudo_name : String)
    (hv : validate_modifiers field.modifiers = Except.ok ()) :
    emitField pseudo_name field = Except.ok (specResolve pseudo_name field) := by
  have hnc := validate_ok_no_conflict field.modifiers pseudo_name hv
  unfold emitField specResolve
  rw [hv]
  cases hh : (symbol_mods field.modifiers pseudo_name).has_hide with
  | true =>
    have ho : (symbol_mods field.modifiers pseudo_name).has_option = false := by
      cases hx : (symbol_mods field.modifiers pseudo_name).has_option with
      | true => exact absurd ⟨hh, Or.inl hx⟩ hnc
      | false => rfl
    simp [hh, ho]
  | false =>
    by_cases ho : (symbol_mods field.modifiers pseudo_name).has_option = true <;>
      by_cases hs : (symbol_mods field.modifiers pseudo_name).has_show = true <;>
        cases hd : field.default_show <;> simp [hh, ho, hs, hd]

/-- Witness for C1: a concrete validated field, resolved for its own
pseudonym and for an unrelated one. -/
theorem C1_emission_cascade_witness :
    emitField "a" ⟨[Modifier.Hide ⟨"a", 0⟩], ⟨"x", 1⟩, "T", "pub", VisDefault.Show⟩ =
      Except.ok (specResolve "a"
        ⟨[Modifier.Hide ⟨"a", 0⟩], ⟨"x", 1⟩, "T", "pub", VisDefault.Show⟩) :=
  C1_emission_cascade ⟨[Modifier.Hide ⟨"a", 0⟩], ⟨"x", 1⟩, "T", "pub", VisDefault.Show⟩
    "a" (by decide)

/-- Claim C2: end-to-end over parsing and emission, a field whose only
directive is `hide(V)` (V a declared pseudonym) parses with DefaultPolicy
Show, is omitted from view V, and is kept with its original type in every
other view; a field whose only directive is `show(V)` parses with
DefaultPolicy Hide (the first show block flips it), is kept with its original
type in view V, and is omitted from every other view. -/
theorem C2_single_directive (v w fname typ vis : String) (names : List String)
    (sv sh sn sp : Nat)
    (hmem : names.contains v = true) (hvw : v ≠ w) :
    (processField names ⟨some ⟨fname, sn⟩, typ, vis,
        [⟨sp, .list [⟨"hide", sh⟩] [[⟨v, sv⟩]]⟩]⟩ =
      .ok ⟨[Modifier.Hide ⟨v, sv⟩], ⟨fname, sn⟩, typ, vis, VisDefault.Show⟩) ∧
    (emitField v ⟨[Modifier.Hide ⟨v, sv⟩], ⟨fname, sn⟩, typ, vis, VisDefault.Show⟩ =
      Except.ok none) ∧
    (emitField w ⟨[Modifier.Hide ⟨v, sv⟩], ⟨fname, sn⟩, typ, vis, VisDefault.Show⟩ =
      Except.ok (some ⟨vis, ⟨fname, sn⟩, EmittedTy.orig typ⟩)) ∧
    (processField names ⟨some ⟨fname, sn⟩, typ, vis,
        [⟨sp, .list [⟨"show", sh⟩] [[⟨v, sv⟩]]⟩]⟩ =
      .ok ⟨[Modifier.Show ⟨v, sv⟩], ⟨fname, sn⟩, typ, vis, VisDefault.Hide⟩) ∧
    (emitField v ⟨[Modifier.Show ⟨v, sv⟩], ⟨fname, sn⟩, typ, vis, VisDefault.Hide⟩ =
      Except.ok (some ⟨vis, ⟨fname, sn⟩, EmittedTy.orig typ⟩)) ∧
    (emitField w ⟨[Modifier.Show ⟨v, sv⟩], ⟨fname, sn⟩, typ, vis, VisDefault.Hide⟩ =
      Except.ok none) := by
  have hvw' : ¬(v = w) := hvw
  have hmem2 : v ∈ names := by simpa using hmem
  refine ⟨?_, ?_, ?_, ?_, ?_, ?_⟩
  · simp [processField, parse_modifiers, parseAttrs, parseStep, collectNames,
      pstateInit, undeclaredCheck, hmem2]
  · simp [emitField, validate_modifiers, buildH, updateH, lookupF, conflictErr,
      symbol_mods, setFlag, Modifier.name, Modifier.name_id]
  · simp [emitField, validate_modifiers, buildH, updateH, lookupF, conflictErr,
      symbol_mods, setFlag, Modifier.name, Modifier.name_id, hvw']
  · simp [processField, parse_modifiers, parseAttrs, parseStep, collectNames,
      pstateInit, undeclaredCheck, hmem2]
  · simp [emitField, validate_modifiers, buildH, updateH, lookupF, conflictErr,
      symbol_mods, setFlag, Modifier.name, Modifier.name_id]
  · simp [emitField, validate_modifiers, buildH, updateH, lookupF, conflictErr,
      symbol_mods, setFlag, Modifier.name, Modifier.name_id, hvw']

/-- Witness for C2 at concrete pseudonyms and spans. -/
theorem C2_single_directive_witness :
    (processField ["a", "b"] ⟨some ⟨"x", 0⟩, "T", "pub",
        [⟨1, .list [⟨"hide", 2⟩] [[⟨"a", 3⟩]]⟩]⟩ =
      .ok ⟨[Modifier.Hide ⟨"a", 3⟩], ⟨"x", 0⟩, "T", "pub", VisDefault.Show⟩) ∧
    (emitField "a" ⟨[Modifier.Hide ⟨"a", 3⟩], ⟨"x", 0⟩, "T", "pub", VisDefault.Show⟩ =
      Except.ok none) ∧
    (emitField "b" ⟨[Modifier.Hide ⟨"a", 3⟩], ⟨"x", 0⟩, "T", "pub", VisDefault.Show⟩ =
      Except.ok (some ⟨"pub", ⟨"x", 0⟩, EmittedTy.orig "T"⟩)) ∧
    (processField ["a", "b"] ⟨some ⟨"x", 0⟩, "T", "pub",
        [⟨1, .list [⟨"show", 2⟩] [[⟨"a", 3⟩]]⟩]⟩ =
      .ok ⟨[Modifier.Show ⟨"a", 3⟩], ⟨"x", 0⟩, "T", "pub", VisDefault.Hide⟩) ∧
    (emitField "a" ⟨[Modifier.Show ⟨"a", 3⟩], ⟨"x", 0⟩, "T", "pub", VisDefault.Hide⟩ =
      Except.ok (some ⟨"pub", ⟨"x", 0⟩, EmittedTy.orig "T"⟩)) ∧
    (emitField "b" ⟨[Modifier.Show ⟨"a", 3⟩], ⟨"x", 0⟩, "T", "pub", VisDefault.Hide⟩ =
      Except.ok none) :=
  C2_single_directive "a" "b" "x" "T" "pub" ["a", "b"] 3 2 0 1 (by decide) (by decide)

lemma parseAttrs_append (xs ys : List Attr) (st : PState) :
    parseAttrs st (xs ++ ys) =
      match parseAttrs st xs with
      | .panics => .panics
      | .errs e => .errs e
      | .ok st' => parseAttrs st' ys := by
  induction xs generalizing st with
  | nil => simp [parseAttrs]
  | cons a rest ih =>
    simp only [List.cons_append, parseAttrs]
    cases parseStep st a with
    | panics => rfl
    | errs e => rfl
    | ok st' => exact ih st'

/-- Claim C3 (amended): once an explicit override has been set by a hide or
show block, a later block of the other category is a hard error — with the
message "Double visibilty overrides are not allowed", which does not name the
field — reported at the location of the second block's category identifier,
regardless of which views the blocks list (conjuncts 1-2); a later block of
the same category never produces this error and steps normally
(conjuncts 3-4). An explicit override set by a hide block leaves `def_vis`
at Show; one set by a show block flips it to Hide. -/
theorem C3_cross_category (fid : Option Ident) (typ vis : String)
    (pre rest : List Attr) (st : PState) (idn : Ident)
    (nested : List (List Ident)) (ns : List Ident) (ps : Nat)
    (hpre : parseAttrs pstateInit pre = .ok st)
    (hexp : st.has_explicit_vis = true)
    (hns : collectNames nested = .ok ns) :
    (idn.name = "hide" → st.def_vis = VisDefault.Hide →
      parse_modifiers ⟨fid, typ, vis, pre ++ ⟨ps, .list [idn] nested⟩ :: rest⟩ =
        .errs [⟨idn.span, dblMsg⟩]) ∧
    (idn.name = "show" → st.def_vis = VisDefault.Show →
      parse_modifiers ⟨fid, typ, vis, pre ++ ⟨ps, .list [idn] nested⟩ :: rest⟩ =
        .errs [⟨idn.span, dblMsg⟩]) ∧
    (idn.name = "hide" → st.def_vis = VisDefault.Show →
      parseStep st ⟨ps, .list [idn] nested⟩ =
        .ok ⟨st.ret ++ ns.map (fun n => Modifier.Hide n), VisDefault.Show, true⟩) ∧
    (idn.name = "show" → st.def_vis = VisDefault.Hide →
      parseStep st ⟨ps, .list [idn] nested⟩ =
        .ok ⟨st.ret ++ ns.map (fun n => Modifier.Show n), VisDefault.Hide, true⟩) := by
  refine ⟨?_, ?_, ?_, ?_⟩ <;> intro h1 h2 <;>
    first
    | (unfold parse_modifiers
       rw [parseAttrs_append, hpre]
       simp [parseAttrs, parseStep, hns, h1, h2, hexp])
    | simp [parseStep, hns, h1, h2, hexp]

/-- Witness for C3: a show block followed by a hide block errors at the hide
identifier's location. -/
theorem C3_cross_category_witness :
    parse_modifiers ⟨some ⟨"f", 0⟩, "T", "",
        [⟨0, .list [⟨"show", 1⟩] []⟩, ⟨0, .list [⟨"hide", 5⟩] []⟩]⟩ =
      .errs [⟨5, dblMsg⟩] :=
  (C3_cross_category (some ⟨"f", 0⟩) "T" "" [⟨0, .list [⟨"show", 1⟩] []⟩] []
      ⟨[], VisDefault.Hide, true⟩ ⟨"hide", 5⟩ [] [] 0 (by decide) rfl rfl).1 rfl rfl

/-- Counterexample to C3 as stated: the cross-category conflict diagnostic's
message is "Double visibilty overrides are not allowed" — it is not
"conflicting visibility declarations for field f" and does not name the
field. -/
theorem C3_counterexample :
    parse_modifiers ⟨some ⟨"f", 0⟩, "T", "",
        [⟨0, .list [⟨"hide", 1⟩] [[⟨"a", 2⟩]]⟩, ⟨0, .list [⟨"show", 5⟩] [[⟨"b", 6⟩]]⟩]⟩ =
      .errs [⟨5, "Double visibilty overrides are not allowed"⟩] ∧
    "Double visibilty overrides are not allowed" ≠
      "conflicting visibility declarations for field f" := by
  exact ⟨rfl, by decide⟩

/-- The inclusion cascade of the emission closure, after a successful
re-validation (lib.rs 340-354). -/
def emitCascade (pseudo_name : String) (field : Entry) : Option ViewField :=
  let modifiers := symbol_mods field.modifiers pseudo_name
  if modifiers.has_hide then none
  else if modifiers.has_option then some ⟨field.vis, field.name, .optionOf field.typ⟩
  else if modifiers.has_show then some ⟨field.vis, field.name, .orig field.typ⟩
  else
    match field.default_show with
    | .Hide => none
    | .Show => some ⟨field.vis, field.name, .orig field.typ⟩

lemma emitField_ok_of_valid (pseudo : String) (f : Entry)
    (hv : validate_modifiers f.modifiers = .ok ()) :
    emitField pseudo f = .ok (emitCascade pseudo f) := by
  unfold emitField emitCascade
  rw [hv]
  dsimp only
  split_ifs <;> first | rfl | (cases f.default_show <;> rfl)

lemma emitField_error_of_invalid (pseudo : String) (f : Entry) (eg : List Diagnostic)
    (hv : validate_modifiers f.modifiers = .error eg) :
    emitField pseudo f = .error eg := by
  unfold emitField
  rw [hv]

/-- Any field with an invalid directive set poisons the emission of every
view: the per-view field collection returns an error stream. -/
lemma collectFields_error_of_invalid (pseudo : String) (fields : List Entry)
    (h : ∃ f ∈ fields, validate_modifiers f.modifiers ≠ .ok ()) :
    ∃ e, collectFields pseudo fields = .error e := by
  induction fields with
  | nil =>
    obtain ⟨f, hf, -⟩ := h
    simp at hf
  | cons g rest ih =>
    by_cases hg : validate_modifiers g.modifiers = .ok ()
    · have hrest : ∃ f ∈ rest, validate_modifiers f.modifiers ≠ .ok () := by
        obtain ⟨f, hf, hne⟩ := h
        cases List.mem_cons.mp hf with
        | inl heq => rw [heq] at hne; exact absurd hg hne
        | inr hm => exact ⟨f, hm, hne⟩
      obtain ⟨e, he⟩ := ih hrest
      refine ⟨e, ?_⟩
      simp only [collectFields]
      rw [emitField_ok_of_valid pseudo g hg]
      cases hc : emitCascade pseudo g with
      | none => simpa [hc] using he
      | some vf => simp [hc, he]
    · cases hveq : validate_modifiers g.modifiers with
      | ok u => cases u; exact absurd hveq hg
      | error eg =>
        refine ⟨eg, ?_⟩
        simp only [collectFields]
        rw [emitField_error_of_invalid pseudo g eg hveq]

/-- Claim C4: a field whose DirectiveSet names the same pseudonym `p` in both
Hide and Optional fails validation with the hide/optional contradiction
diagnostic naming `p`, and every declared view's emission produces the error
stream instead of a generated view; a field naming the same pseudonym in both
Show and Optional (with no conflicting pair anywhere in its set) passes
validation and is emitted in that view with its type wrapped as optional. -/
theorem C4_hide_optional_vs_show_optional
    (mods mods2 : List Modifier) (p q : String) (e2 : Entry)
    (parsed : ItemStruct) (fields : List Entry) (pseudo gen : String)
    (h1 : (symbol_mods mods p).has_hide = true)
    (h2 : (symbol_mods mods p).has_option = true)
    (h3 : (symbol_mods mods p).has_show = false)
    (h4 : ∃ f ∈ fields, f.modifiers = mods)
    (h5 : ∀ kv ∈ buildH mods2, conflictErr kv = none)
    (h6 : (symbol_mods mods2 q).has_show = true)
    (h7 : (symbol_mods mods2 q).has_option = true)
    (h8 : e2.modifiers = mods2) :
    (∃ es, validate_modifiers mods = .error es ∧
       ∃ sp, (⟨sp, hideOptionalMsg p⟩ : Diagnostic) ∈ es) ∧
    (∃ err, emitView parsed fields pseudo gen = .inl err) ∧
    validate_modifiers mods2 = .ok () ∧
    emitField q e2 = .ok (some ⟨e2.vis, e2.name, .optionOf e2.typ⟩) := by
  have hinfo := infoOf_buildH mods p
  obtain ⟨f, hl⟩ : ∃ f, lookupF (buildH mods) p = some f := by
    cases hx : lookupF (buildH mods) p with
    | none =>
      simp only [infoOf, hx] at hinfo
      rw [← hinfo] at h1
      simp at h1
    | some f => exact ⟨f, rfl⟩
  simp only [infoOf, hl] at hinfo
  have hfh : f.a.has_hide = true := by rw [hinfo]; exact h1
  have hfo : f.a.has_option = true := by rw [hinfo]; exact h2
  have hfs : f.a.has_show = false := by rw [hinfo]; exact h3
  have hdiag : conflictErr (p, f) = some ⟨f.b.span, hideOptionalMsg p⟩ := by
    simp [conflictErr, hfh, hfo, hfs]
  have hmemd : (⟨f.b.span, hideOptionalMsg p⟩ : Diagnostic) ∈
      (buildH mods).filterMap conflictErr :=
    List.mem_filterMap.mpr ⟨(p, f), lookupF_mem _ _ _ hl, hdiag⟩
  have hlen : ((buildH mods).filterMap conflictErr).length ≠ 0 := by
    intro h0
    rw [List.length_eq_zero.mp h0] at hmemd
    simp at hmemd
  have hverr : validate_modifiers mods = .error ((buildH mods).filterMap conflictErr) := by
    unfold validate_modifiers
    rw [if_pos hlen]
  have hv2 : validate_modifiers mods2 = .ok () := (validate_ok_iff mods2).mpr h5
  refine ⟨⟨_, hverr, f.b.span, hmemd⟩, ?_, hv2, ?_⟩
  · obtain ⟨g, hgmem, hgmods⟩ := h4
    have : ∃ g ∈ fields, validate_modifiers g.modifiers ≠ .ok () := by
      refine ⟨g, hgmem, ?_⟩
      rw [hgmods, hverr]
      exact fun hc => Except.noConfusion hc
    obtain ⟨e, he⟩ := collectFields_error_of_invalid pseudo fields this
    exact ⟨e, by unfold emitView; rw [he]⟩
  · have hnc := validate_ok_no_conflict mods2 q hv2
    have hnh : (symbol_mods mods2 q).has_hide = false := by
      cases hx : (symbol_mods mods2 q).has_hide with
      | true => exact absurd ⟨hx, Or.inl h7⟩ hnc
      | false => rfl
    unfold emitField
    rw [h8, hv2]
    simp [hnh, h7]

/-- Witness for C4 at concrete directive sets. -/
theorem C4_hide_optional_vs_show_optional_witness :
    (∃ es, validate_modifiers [Modifier.Hide ⟨"p", 0⟩, Modifier.Optional ⟨"p", 1⟩] =
        .error es ∧ ∃ sp, (⟨sp, hideOptionalMsg "p"⟩ : Diagnostic) ∈ es) ∧
    (∃ err, emitView ⟨[], "", "S", []⟩
        [⟨[Modifier.Hide ⟨"p", 0⟩, Modifier.Optional ⟨"p", 1⟩], ⟨"x", 2⟩, "T", "",
          VisDefault.Show⟩] "p" "P" = .inl err) ∧
    validate_modifiers [Modifier.Show ⟨"q", 3⟩, Modifier.Optional ⟨"q", 4⟩] = .ok () ∧
    emitField "q" ⟨[Modifier.Show ⟨"q", 3⟩, Modifier.Optional ⟨"q", 4⟩], ⟨"y", 5⟩, "U",
        "pub", VisDefault.Hide⟩ =
      .ok (some ⟨"pub", ⟨"y", 5⟩, .optionOf "U"⟩) :=
  C4_hide_optional_vs_show_optional
    [Modifier.Hide ⟨"p", 0⟩, Modifier.Optional ⟨"p", 1⟩]
    [Modifier.Show ⟨"q", 3⟩, Modifier.Optional ⟨"q", 4⟩] "p" "q"
    ⟨[Modifier.Show ⟨"q", 3⟩, Modifier.Optional ⟨"q", 4⟩], ⟨"y", 5⟩, "U", "pub",
      VisDefault.Hide⟩
    ⟨[], "", "S", []⟩
    [⟨[Modifier.Hide ⟨"p", 0⟩, Modifier.Optional ⟨"p", 1⟩], ⟨"x", 2⟩, "T", "",
      VisDefault.Show⟩] "p" "P"
    (by decide) (by decide) (by decide) (by decide) (by decide) (by decide)
    (by decide) rfl

lemma undeclaredCheck_eq (names : List String) (m : Modifier) :
    undeclaredCheck names m =
      if names.contains m.name_id.name then none
      else some ⟨m.name_id.span, "Undeclared struct " ++ m.name_id.name⟩ := by
  cases m with
  | Hide n => by_cases hc : n.name ∈ names <;> simp [undeclaredCheck, hc, Modifier.name_id]
  | Show n => by_cases hc : n.name ∈ names <;> simp [undeclaredCheck, hc, Modifier.name_id]
  | Optional n => by_cases hc : n.name ∈ names <;> simp [undeclaredCheck, hc, Modifier.name_id]

/-- Field processing halts at a failing field: the fields after it are never
examined and its error batch is the whole output. -/
lemma processFields_halt (names : List String) (pre : List Field) (f : Field)
    (post : List Field) (entries : List Entry) (es : List Diagnostic)
    (hpre : processFields names pre = .ok entries)
    (hf : processField names f = .errs es) :
    processFields names (pre ++ f :: post) = .errs es := by
  induction pre generalizing entries with
  | nil => simp only [List.nil_append, processFields, hf]
  | cons g rest ih =>
    simp only [List.cons_append, processFields] at hpre ⊢
    cases hg : processField names g with
    | panics => simp [hg] at hpre
    | errs e => simp [hg] at hpre
    | ok entry =>
      simp only [hg] at hpre ⊢
      cases hr : processFields names rest with
      | panics => simp [hr] at hpre
      | errs e => simp [hr] at hpre
      | ok entries2 =>
        have h3 : processFields names (rest.append (f :: post)) = POut.errs es :=
          ih entries2 hr
        rw [h3]

/-- Claim C5: for every field, every view-pseudonym named in a Hide, Show, or
Optional directive that is absent from the declared namespace produces an
undeclared-reference diagnostic located at that identifier; all of the
field's undeclared-reference diagnostics are reported together in one batch
(the batch contains exactly them), and processing halts on that field — later
fields contribute no diagnostics to the run. -/
theorem C5_undeclared_batched (names : List String) (field : Field) (fid : Ident)
    (pm : ParseModifiers) (pre post : List Field) (entries : List Entry)
    (hid : field.ident = some fid)
    (hp : parse_modifiers field = .ok pm)
    (hbad : pm.mods.filterMap (undeclaredCheck names) ≠ [])
    (hpre : processFields names pre = .ok entries) :
    ∃ es, processField names field = .errs es ∧
      (∀ m ∈ pm.mods, names.contains m.name_id.name = false →
        (⟨m.name_id.span, "Undeclared struct " ++ m.name_id.name⟩ : Diagnostic) ∈ es) ∧
      (∀ d ∈ es, ∃ m ∈ pm.mods, names.contains m.name_id.name = false ∧
        d = ⟨m.name_id.span, "Undeclared struct " ++ m.name_id.name⟩) ∧
      processFields names (pre ++ field :: post) = .errs es := by
  have hlen : (pm.mods.filterMap (undeclaredCheck names)).length ≠ 0 := by
    intro h0
    exact hbad (List.length_eq_zero.mp h0)
  have hpf : processField names field = .errs (pm.mods.filterMap (undeclaredCheck names)) := by
    unfold processField
    rw [hid, hp]
    dsimp only
    rw [if_pos hlen]
  refine ⟨pm.mods.filterMap (undeclaredCheck names), hpf, ?_, ?_, ?_⟩
  · intro m hm hnc
    refine List.mem_filterMap.mpr ⟨m, hm, ?_⟩
    rw [undeclaredCheck_eq, if_neg (by rw [hnc]; simp)]
  · intro d hd
    obtain ⟨m, hm, hcheck⟩ := List.mem_filterMap.mp hd
    rw [undeclaredCheck_eq] at hcheck
    by_cases hc : names.contains m.name_id.name
    · rw [if_pos hc] at hcheck
      exact absurd hcheck (by simp)
    · rw [if_neg hc] at hcheck
      exact ⟨m, hm, by simpa using hc, (Option.some.inj hcheck).symm⟩
  · exact processFields_halt names pre field post entries _ hpre hpf

/-- Witness for C5: a field naming two undeclared pseudonyms reports both in
one batch and halts the run there. -/
theorem C5_undeclared_batched_witness :
    ∃ es, processField ["a"]
        ⟨some ⟨"x", 0⟩, "T", "", [⟨0, .list [⟨"hide", 1⟩] [[⟨"u", 2⟩], [⟨"v", 3⟩]]⟩]⟩ =
        .errs es ∧
      (∀ m ∈ [Modifier.Hide ⟨"u", 2⟩, Modifier.Hide ⟨"v", 3⟩],
        List.contains ["a"] m.name_id.name = false →
        (⟨m.name_id.span, "Undeclared struct " ++ m.name_id.name⟩ : Diagnostic) ∈ es) ∧
      (∀ d ∈ es, ∃ m ∈ [Modifier.Hide ⟨"u", 2⟩, Modifier.Hide ⟨"v", 3⟩],
        List.contains ["a"] m.name_id.name = false ∧
        d = ⟨m.name_id.span, "Undeclared struct " ++ m.name_id.name⟩) ∧
      processFields ["a"]
        ([] ++ ⟨some ⟨"x", 0⟩, "T", "", [⟨0, .list [⟨"hide", 1⟩] [[⟨"u", 2⟩], [⟨"v", 3⟩]]⟩]⟩ ::
          [⟨some ⟨"y", 4⟩, "T", "", [⟨0, .list [⟨"hide", 5⟩] [[⟨"w", 6⟩]]⟩]⟩]) = .errs es :=
  C5_undeclared_batched ["a"]
    ⟨some ⟨"x", 0⟩, "T", "", [⟨0, .list [⟨"hide", 1⟩] [[⟨"u", 2⟩], [⟨"v", 3⟩]]⟩]⟩
    ⟨"x", 0⟩ ⟨VisDefault.Show, [Modifier.Hide ⟨"u", 2⟩, Modifier.Hide ⟨"v", 3⟩]⟩
    [] [⟨some ⟨"y", 4⟩, "T", "", [⟨0, .list [⟨"hide", 5⟩] [[⟨"w", 6⟩]]⟩]⟩] []
    rfl (by decide) (by decide) rfl

/-- During the emission of one view, the field collection halts at the first
field whose directive set fails re-validation: its error stream is the whole
result. -/
lemma collectFields_halt (pseudo : String) (epre : List Entry) (g : Entry)
    (epost : List Entry) (e2 : List Diagnostic)
    (hpre : ∀ x ∈ epre, validate_modifiers x.modifiers = .ok ())
    (hg : validate_modifiers g.modifiers = .error e2) :
    collectFields pseudo (epre ++ g :: epost) = .error e2 := by
  induction epre with
  | nil =>
    simp only [List.nil_append, collectFields]
    rw [emitField_error_of_invalid pseudo g e2 hg]
  | cons x rest ih =>
    have hx := hpre x (List.mem_cons_self x rest)
    have hrest : ∀ y ∈ rest, validate_modifiers y.modifiers = .ok () :=
      fun y hy => hpre y (List.mem_cons_of_mem x hy)
    simp only [List.cons_append, collectFields]
    rw [emitField_ok_of_valid pseudo x hx]
    cases hc : emitCascade pseudo x with
    | none => simpa using ih hrest
    | some vf => simp [ih hrest]

/-- Claim C6 (amended): processing is sequential and first-failure-wins
within each phase. In the per-field parse/reference phase, the run halts at
the first field that fails, reporting exactly its batch (conjunct 1); during
emission, each view's field collection halts at the first field failing
conflict re-validation, reporting exactly its errors (conjunct 2). Since the
parse/reference phase of all fields runs before any conflict validation, a
later field's reference error preempts an earlier field's conflict error
(see the counterexample to the original claim). -/
theorem C6_first_failure_per_phase (names : List String) (pre : List Field)
    (f : Field) (post : List Field) (entries : List Entry) (e : List Diagnostic)
    (epre : List Entry) (g : Entry) (epost : List Entry) (pseudo : String)
    (e2 : List Diagnostic) :
    (processFields names pre = .ok entries → processField names f = .errs e →
      processFields names (pre ++ f :: post) = .errs e) ∧
    ((∀ x ∈ epre, validate_modifiers x.modifiers = .ok ()) →
      validate_modifiers g.modifiers = .error e2 →
      collectFields pseudo (epre ++ g :: epost) = .error e2) := by
  constructor
  · intro hpre hf
    exact processFields_halt names pre f post entries e hpre hf
  · intro hpre hg
    exact collectFields_halt pseudo epre g epost e2 hpre hg

/-- Witness for the amended C6 at concrete schemas. -/
theorem C6_first_failure_per_phase_witness :
    (processFields ["a"] ([⟨some ⟨"w", 0⟩, "T", "", []⟩] ++
        ⟨some ⟨"y", 5⟩, "T", "", [⟨0, .list [⟨"hide", 6⟩] [[⟨"zz", 7⟩]]⟩]⟩ ::
        [⟨some ⟨"z", 8⟩, "T", "", [⟨0, .list [⟨"hide", 9⟩] [[⟨"qq", 10⟩]]⟩]⟩]) =
      .errs [⟨7, "Undeclared struct zz"⟩]) ∧
    (collectFields "a" ([⟨[], ⟨"w", 0⟩, "T", "", VisDefault.Show⟩] ++
        ⟨[Modifier.Hide ⟨"a", 2⟩, Modifier.Optional ⟨"a", 4⟩], ⟨"x", 1⟩, "T", "",
          VisDefault.Show⟩ :: []) =
      .error [⟨2, hideOptionalMsg "a"⟩]) := by
  constructor
  · exact (C6_first_failure_per_phase ["a"] [⟨some ⟨"w", 0⟩, "T", "", []⟩]
      ⟨some ⟨"y", 5⟩, "T", "", [⟨0, .list [⟨"hide", 6⟩] [[⟨"zz", 7⟩]]⟩]⟩
      [⟨some ⟨"z", 8⟩, "T", "", [⟨0, .list [⟨"hide", 9⟩] [[⟨"qq", 10⟩]]⟩]⟩]
      [⟨[], ⟨"w", 0⟩, "T", "", VisDefault.Show⟩] [⟨7, "Undeclared struct zz"⟩]
      [] ⟨[], ⟨"w", 0⟩, "T", "", VisDefault.Show⟩ [] "a" []).1 (by decide) (by decide)
  · exact (C6_first_failure_per_phase [] [] ⟨none, "", "", []⟩ [] [] []
      [⟨[], ⟨"w", 0⟩, "T", "", VisDefault.Show⟩]
      ⟨[Modifier.Hide ⟨"a", 2⟩, Modifier.Optional ⟨"a", 4⟩], ⟨"x", 1⟩, "T", "",
        VisDefault.Show⟩ [] "a" [⟨2, hideOptionalMsg "a"⟩]).2 (by decide) (by decide)

/-- Counterexample to C6 as stated: field 0 fails conflict validation
(hide+optional on pseudonym `a`), and the later field 1 fails reference
validation (undeclared pseudonym `zz`); yet the run's diagnostics are exactly
field 1's undeclared-reference error and field 0's conflict is absent — the
reference phase of all fields runs before any conflict validation. -/
theorem C6_counterexample :
    validate_modifiers [Modifier.Hide ⟨"a", 2⟩, Modifier.Optional ⟨"a", 4⟩] =
      .error [⟨2, hideOptionalMsg "a"⟩] ∧
    structur [.ident "a", .eq, .ident "A"]
      (.structItem ⟨[], "pub", "S",
        [⟨some ⟨"x", 0⟩, "T", "", [⟨0, .list [⟨"hide", 1⟩] [[⟨"a", 2⟩]]⟩,
            ⟨0, .list [⟨"optional", 3⟩] [[⟨"a", 4⟩]]⟩]⟩,
         ⟨some ⟨"y", 5⟩, "T", "", [⟨0, .list [⟨"hide", 6⟩] [[⟨"zz", 7⟩]]⟩]⟩]⟩) =
      .ok (.errs [⟨7, "Undeclared struct zz"⟩]) :=
  ⟨rfl, rfl⟩

lemma emitField_some_shape (pseudo : String) (f : Entry) (vf : ViewField)
    (h : emitField pseudo f = .ok (some vf)) :
    vf.name = f.name ∧ vf.vis = f.vis := by
  unfold emitField at h
  cases hv : validate_modifiers f.modifiers with
  | error e => rw [hv] at h; simp at h
  | ok u =>
    cases u
    rw [hv] at h
    dsimp only at h
    split_ifs at h with h1 h2 h3
    · simp at h
    · obtain ⟨rfl⟩ : (⟨f.vis, f.name, .optionOf f.typ⟩ : ViewField) = vf := by
        simpa using h
      exact ⟨rfl, rfl⟩
    · obtain ⟨rfl⟩ : (⟨f.vis, f.name, .orig f.typ⟩ : ViewField) = vf := by
        simpa using h
      exact ⟨rfl, rfl⟩
    · cases hd : f.default_show with
      | Hide => rw [hd] at h; simp at h
      | Show =>
        rw [hd] at h
        obtain ⟨rfl⟩ : (⟨f.vis, f.name, .orig f.typ⟩ : ViewField) = vf := by
          simpa using h
        exact ⟨rfl, rfl⟩

/-- A successful per-view collection is an order-preserving selection of the
schema's fields, each surviving row keeping its field's name and access
qualifier. -/
lemma collectFields_shape (pseudo : String) (fields : List Entry) (l : List ViewField)
    (h : collectFields pseudo fields = .ok l) :
    (l.map (fun vf => vf.name)).Sublist (fields.map (fun f => f.name)) ∧
    ∀ vf ∈ l, ∃ f ∈ fields, vf.name = f.name ∧ vf.vis = f.vis := by
  induction fields generalizing l with
  | nil =>
    simp only [collectFields] at h
    have : ([] : List ViewField) = l := by simpa using h
    subst this
    simp
  | cons f rest ih =>
    simp only [collectFields] at h
    cases he : emitField pseudo f with
    | error e => rw [he] at h; simp at h
    | ok o =>
      rw [he] at h
      cases o with
      | none =>
        have hr : collectFields pseudo rest = .ok l := by simpa using h
        obtain ⟨hsub, hmem⟩ := ih l hr
        refine ⟨hsub.trans (List.sublist_cons_self _ _), ?_⟩
        intro vf hvf
        obtain ⟨g, hg, hgs⟩ := hmem vf hvf
        exact ⟨g, List.mem_cons_of_mem _ hg, hgs⟩
      | some vf =>
        cases hr : collectFields pseudo rest with
        | error e => rw [hr] at h; simp at h
        | ok vfs =>
          rw [hr] at h
          have hl : vf :: vfs = l := by simpa using h
          subst hl
          obtain ⟨hname, hvis⟩ := emitField_some_shape pseudo f vf he
          obtain ⟨hsub, hmem⟩ := ih vfs hr
          constructor
          · simp only [List.map_cons]
            rw [hname]
            exact hsub.cons₂ _
          · intro w hw
            cases List.mem_cons.mp hw with
            | inl heq => exact ⟨f, List.mem_cons_self _ _, heq ▸ ⟨hname, hvis⟩⟩
            | inr hm =>
              obtain ⟨g, hg, hgs⟩ := hmem w hm
              exact ⟨g, List.mem_cons_of_mem _ hg, hgs⟩

lemma emitView_inr_parts (parsed : ItemStruct) (fields : List Entry)
    (pseudo gen : String) (v : ViewStruct)
    (h : emitView parsed fields pseudo gen = .inr v) :
    v.attrs = parsed.attrs ∧ v.vis = parsed.vis ∧ v.name = gen ∧
      collectFields pseudo fields = .ok v.fields := by
  unfold emitView at h
  cases hc : collectFields pseudo fields with
  | error e => rw [hc] at h; simp at h
  | ok l =>
    rw [hc] at h
    have hv2 := Sum.inr.inj h
    subst hv2
    exact ⟨rfl, rfl, rfl, rfl⟩

/-- Claim C7: in every successfully generated view, the surviving fields
appear in the canonical declaration order (their names form a sublist of the
schema's field-name sequence), each surviving field keeps its access
qualifier, and the schema's record-level access qualifier and pass-through
attributes are copied unchanged onto the view. -/
theorem C7_order_and_copy (parsed : ItemStruct) (fields : List Entry)
    (pseudo gen : String) (v : ViewStruct)
    (h : emitView parsed fields pseudo gen = .inr v) :
    v.attrs = parsed.attrs ∧ v.vis = parsed.vis ∧ v.name = gen ∧
    (v.fields.map (fun vf => vf.name)).Sublist (fields.map (fun f => f.name)) ∧
    ∀ vf ∈ v.fields, ∃ f ∈ fields, vf.name = f.name ∧ vf.vis = f.vis := by
  obtain ⟨ha, hv, hn, hc⟩ := emitView_inr_parts parsed fields pseudo gen v h
  obtain ⟨hsub, hmem⟩ := collectFields_shape pseudo fields v.fields hc
  exact ⟨ha, hv, hn, hsub, hmem⟩

/-- Witness for C7: three fields declared [a, b, c] with b hidden in the
view; the emitted view keeps a then c, with qualifiers and attributes
copied. -/
theorem C7_order_and_copy_witness :
    (⟨["derive"], "pub", "G",
        [⟨"v1", ⟨"a", 0⟩, .orig "T1"⟩, ⟨"v3", ⟨"c", 3⟩, .orig "T3"⟩]⟩ : ViewStruct).attrs =
      (⟨["derive"], "pub", "S", []⟩ : ItemStruct).attrs ∧
    (⟨["derive"], "pub", "G",
        [⟨"v1", ⟨"a", 0⟩, .orig "T1"⟩, ⟨"v3", ⟨"c", 3⟩, .orig "T3"⟩]⟩ : ViewStruct).vis =
      (⟨["derive"], "pub", "S", []⟩ : ItemStruct).vis ∧
    (⟨["derive"], "pub", "G",
        [⟨"v1", ⟨"a", 0⟩, .orig "T1"⟩, ⟨"v3", ⟨"c", 3⟩, .orig "T3"⟩]⟩ : ViewStruct).name = "G" ∧
    ((⟨["derive"], "pub", "G",
        [⟨"v1", ⟨"a", 0⟩, .orig "T1"⟩, ⟨"v3", ⟨"c", 3⟩, .orig "T3"⟩]⟩ : ViewStruct).fields.map
        (fun vf => vf.name)).Sublist
      (([⟨[], ⟨"a", 0⟩, "T1", "v1", VisDefault.Show⟩,
        ⟨[Modifier.Hide ⟨"p", 1⟩], ⟨"b", 2⟩, "T2", "v2", VisDefault.Show⟩,
        ⟨[], ⟨"c", 3⟩, "T3", "v3", VisDefault.Show⟩] : List Entry).map (fun f => f.name)) ∧
    ∀ vf ∈ (⟨["derive"], "pub", "G",
        [⟨"v1", ⟨"a", 0⟩, .orig "T1"⟩, ⟨"v3", ⟨"c", 3⟩, .orig "T3"⟩]⟩ : ViewStruct).fields,
      ∃ f ∈ ([⟨[], ⟨"a", 0⟩, "T1", "v1", VisDefault.Show⟩,
        ⟨[Modifier.Hide ⟨"p", 1⟩], ⟨"b", 2⟩, "T2", "v2", VisDefault.Show⟩,
        ⟨[], ⟨"c", 3⟩, "T3", "v3", VisDefault.Show⟩] : List Entry),
        vf.name = f.name ∧ vf.vis = f.vis :=
  C7_order_and_copy ⟨["derive"], "pub", "S", []⟩
    [⟨[], ⟨"a", 0⟩, "T1", "v1", VisDefault.Show⟩,
     ⟨[Modifier.Hide ⟨"p", 1⟩], ⟨"b", 2⟩, "T2", "v2", VisDefault.Show⟩,
     ⟨[], ⟨"c", 3⟩, "T3", "v3", VisDefault.Show⟩] "p" "G"
    ⟨["derive"], "pub", "G", [⟨"v1", ⟨"a", 0⟩, .orig "T1"⟩, ⟨"v3", ⟨"c", 3⟩, .orig "T3"⟩]⟩
    (by decide)

/-- An attribute whose path is a single identifier (so `get_ident().unwrap()`
cannot panic); non-list meta shapes are reported, not unwrapped. -/
def attrOk (a : Attr) : Bool :=
  match a.meta with
  | .list path _ => path.length == 1
  | .otherMeta => true

/-- A field that is named and whose attribute paths are single identifiers. -/
def fieldOk (f : Field) : Bool := f.ident.isSome && f.attrs.all attrOk

lemma parseStep_no_panic (st : PState) (a : Attr) (ha : attrOk a = true) :
    parseStep st a ≠ .panics := by
  unfold parseStep
  cases hm : a.meta with
  | otherMeta => simp
  | list path nested =>
    obtain ⟨id, hpath⟩ : ∃ id, path = [id] := by
      unfold attrOk at ha
      rw [hm] at ha
      cases path with
      | nil => simp at ha
      | cons x xs =>
        cases xs with
        | nil => exact ⟨x, rfl⟩
        | cons y ys => simp at ha
    subst hpath
    dsimp only
    cases hc : collectNames nested with
    | error e => simp [hc]
    | ok ns =>
      dsimp only
      split_ifs <;> simp

lemma parseAttrs_no_panic (attrs : List Attr) (st : PState)
    (h : ∀ a ∈ attrs, attrOk a = true) :
    parseAttrs st attrs ≠ .panics := by
  induction attrs generalizing st with
  | nil => simp [parseAttrs]
  | cons a rest ih =>
    simp only [parseAttrs]
    cases hs : parseStep st a with
    | panics => exact absurd hs (parseStep_no_panic st a (h a (List.mem_cons_self _ _)))
    | errs e => simp
    | ok st' => exact ih st' (fun b hb => h b (List.mem_cons_of_mem _ hb))

lemma processField_no_panic (names : List String) (f : Field)
    (h : fieldOk f = true) : processField names f ≠ .panics := by
  unfold fieldOk at h
  rw [Bool.and_eq_true] at h
  obtain ⟨hsome, hattrs⟩ := h
  unfold processField
  cases hid : f.ident with
  | none => rw [hid] at hsome; simp at hsome
  | some fid =>
    cases hp : parse_modifiers f with
    | panics =>
      unfold parse_modifiers at hp
      cases hpa : parseAttrs pstateInit f.attrs with
      | panics =>
        exact absurd hpa
          (parseAttrs_no_panic f.attrs pstateInit (fun a ha => List.all_eq_true.mp hattrs a ha))
      | errs e => rw [hpa] at hp; simp at hp
      | ok st => rw [hpa] at hp; simp at hp
    | errs e => simp
    | ok pm =>
      dsimp only
      split_ifs <;> simp

lemma processFields_no_panic (names : List String) (fs : List Field)
    (h : ∀ f ∈ fs, fieldOk f = true) : processFields names fs ≠ .panics := by
  induction fs with
  | nil => simp [processFields]
  | cons f rest ih =>
    simp only [processFields]
    cases hf : processField names f with
    | panics => exact absurd hf (processField_no_panic names f (h f (List.mem_cons_self _ _)))
    | errs e => simp
    | ok entry =>
      cases hr : processFields names rest with
      | panics => exact absurd hr (ih (fun g hg => h g (List.mem_cons_of_mem _ hg)))
      | errs e => simp
      | ok entries => simp

/-- Claim C8 (amended): when the item parses as a struct, the mapping
arguments parse, every field is named, and every field attribute's path is a
single identifier, the generator returns an output token stream — all errors
inside that scope (unknown categories, multi-segment pseudonyms, non-list
attribute shapes, undeclared references, conflicts) surface as diagnostics,
never as a panic. Outside that scope the generator panics (see the
counterexample to the original claim). -/
theorem C8_no_panic_within_scope (args : List Token) (parsed : ItemStruct)
    (m : List (String × String))
    (h1 : parseAttrArg args = .ok m)
    (h2 : parsed.fields.all fieldOk = true) :
    ∃ o, structur args (.structItem parsed) = .ok o := by
  unfold structur
  simp only [parseItemStruct]
  rw [h1]
  dsimp only
  cases hp : processFields (m.map Prod.fst) parsed.fields with
  | panics =>
    exact absurd hp
      (processFields_no_panic (m.map Prod.fst) parsed.fields
        (fun f hf => List.all_eq_true.mp h2 f hf))
  | errs e => exact ⟨.errs e, rfl⟩
  | ok fields => exact ⟨_, rfl⟩

/-- Witness for the amended C8: a struct whose field carries an unknown
annotation category still produces an output stream (a diagnostic), not a
panic. -/
theorem C8_no_panic_within_scope_witness :
    ∃ o, structur [.ident "a", .eq, .ident "A"]
      (.structItem ⟨[], "pub", "S",
        [⟨some ⟨"x", 0⟩, "T", "", [⟨0, .list [⟨"serde", 1⟩] [[⟨"b", 2⟩]]⟩]⟩]⟩) = .ok o :=
  C8_no_panic_within_scope [.ident "a", .eq, .ident "A"]
    ⟨[], "pub", "S", [⟨some ⟨"x", 0⟩, "T", "", [⟨0, .list [⟨"serde", 1⟩] [[⟨"b", 2⟩]]⟩]⟩]⟩
    [("a", "A")] (by decide) (by decide)

/-- Counterexample to C8 as stated: the generator panics (it does not report
a structured diagnostic) on an input item that is not a struct, on malformed
mapping arguments, on a field attribute whose path is not a plain identifier,
and on a struct with unnamed fields — each `unwrap()` in lib.rs 271, 272,
188, 280. -/
theorem C8_counterexample :
    structur [] Item.otherItem = .panics ∧
    structur [.eq] (.structItem ⟨[], "", "S", []⟩) = .panics ∧
    structur [] (.structItem ⟨[], "", "S",
      [⟨some ⟨"x", 0⟩, "T", "", [⟨0, .list [⟨"serde", 1⟩, ⟨"skip", 2⟩] []⟩]⟩]⟩) = .panics ∧
    structur [] (.structItem ⟨[], "", "S", [⟨none, "T", "", []⟩]⟩) = .panics :=
  ⟨rfl, rfl, rfl, rfl⟩

lemma collectNames_first_bad (good rest : List (List Ident)) (bad : List Ident)
    (hgood : ∀ segs ∈ good, ∃ s, segs = [s]) (hbad : bad.length ≠ 1) :
    collectNames (good ++ bad :: rest) =
      .error ⟨nestedSpan bad, "Expected single-segment identifier"⟩ := by
  induction good with
  | nil =>
    simp only [List.nil_append]
    cases bad with
    | nil => rfl
    | cons s t =>
      cases t with
      | nil => simp at hbad
      | cons u w => rfl
  | cons segs good' ih =>
    obtain ⟨s, hs⟩ := hgood segs (List.mem_cons_self _ _)
    subst hs
    simp only [List.cons_append, collectNames]
    have h3 : collectNames (good'.append (bad :: rest)) =
        Except.error ⟨nestedSpan bad, "Expected single-segment identifier"⟩ :=
      ih (fun t ht => hgood t (List.mem_cons_of_mem _ ht))
    rw [h3]

/-- Claim C9 (amended): an annotation whose category is anything other than
hide, show, or optional is a hard error whose diagnostic carries the fixed
unsupported-modifier message, located at the offending category identifier's
span (the message itself does not name the identifier — see the
counterexample to the original claim); and a directive listing a
multi-segment (path) reference as a view-pseudonym is rejected as a syntax
error located at that reference, whatever the category. -/
theorem C9_unknown_category_and_multiseg (st : PState) (ps ps2 : Nat)
    (idn idn2 : Ident) (nested good rest : List (List Ident)) (bad ns : List Ident)
    (h1 : idn.name ≠ "hide") (h2 : idn.name ≠ "show") (h3 : idn.name ≠ "optional")
    (hok : collectNames nested = .ok ns)
    (hgood : ∀ segs ∈ good, ∃ s, segs = [s]) (hbad : bad.length ≠ 1) :
    parseStep st ⟨ps, .list [idn] nested⟩ = .errs [⟨idn.span, unsupportedMsg⟩] ∧
    parseStep st ⟨ps2, .list [idn2] (good ++ bad :: rest)⟩ =
      .errs [⟨nestedSpan bad, "Expected single-segment identifier"⟩] := by
  constructor
  · simp [parseStep, hok, h1, h2, h3]
  · simp [parseStep, collectNames_first_bad good rest bad hgood hbad]

/-- Witness for C9: the category `serialize` is rejected at its identifier;
a two-segment nested path after a good one is rejected at its location. -/
theorem C9_unknown_category_and_multiseg_witness :
    parseStep pstateInit ⟨0, .list [⟨"serialize", 1⟩] [[⟨"a", 3⟩]]⟩ =
      .errs [⟨1, unsupportedMsg⟩] ∧
    parseStep pstateInit ⟨0, .list [⟨"hide", 2⟩] ([[⟨"a", 3⟩]] ++ [⟨"b", 4⟩, ⟨"c", 5⟩] :: [])⟩ =
      .errs [⟨4, "Expected single-segment identifier"⟩] :=
  C9_unknown_category_and_multiseg pstateInit 0 0 ⟨"serialize", 1⟩ ⟨"hide", 2⟩
    [[⟨"a", 3⟩]] [[⟨"a", 3⟩]] [] [⟨"b", 4⟩, ⟨"c", 5⟩] [⟨"a", 3⟩]
    (by decide) (by decide) (by decide) rfl
    (by
      intro segs hs
      rw [List.mem_singleton] at hs
      exact ⟨⟨"a", 3⟩, hs⟩)
    (by decide)

/-- Counterexample to C9 as stated: the unknown-category diagnostic does not
name the offending identifier — it is the fixed string "Unsupported modifier,
expected one of: `show`, `hide`, `optional`", identical for two different
offending identifiers, and the identifier's name does not occur in it; only
the diagnostic's span points at the identifier. -/
theorem C9_counterexample :
    parseStep pstateInit ⟨0, .list [⟨"frobnicate", 9⟩] [[⟨"a", 3⟩]]⟩ =
      .errs [⟨9, unsupportedMsg⟩] ∧
    parseStep pstateInit ⟨0, .list [⟨"blargh", 9⟩] [[⟨"a", 3⟩]]⟩ =
      .errs [⟨9, unsupportedMsg⟩] ∧
    ¬ List.IsInfix "frobnicate".toList unsupportedMsg.toList := by
  refine ⟨rfl, rfl, ?_⟩
  decide

/-- Claim C10: on a successful run the output token stream consists of
exactly one item per declared mapping — the generated views — and the
canonical (annotated) struct definition is not re-emitted: every generated
struct's name is a mapping target, so when the canonical name is not itself a
mapping target, no emitted struct bears it. -/
theorem C10_output_replaces_input (args : List Token) (item : Item)
    (parsed : ItemStruct) (mappings : List (String × String)) (fields : List Entry)
    (out : List (Sum (List Diagnostic) ViewStruct))
    (h1 : parseAttrArg args = .ok mappings)
    (h2 : item = .structItem parsed)
    (h3 : processFields (mappings.map Prod.fst) parsed.fields = .ok fields)
    (h4 : structur args item = .ok (.items out)) :
    out.length = mappings.length ∧
    (∀ v, Sum.inr v ∈ out → v.name ∈ mappings.map Prod.snd) ∧
    (parsed.name ∉ mappings.map Prod.snd →
      ∀ v, Sum.inr v ∈ out → v.name ≠ parsed.name) := by
  subst h2
  unfold structur at h4
  simp only [parseItemStruct] at h4
  rw [h1] at h4
  dsimp only at h4
  rw [h3] at h4
  have hout : mappings.map (fun pg => emitView parsed fields pg.1 pg.2) = out := by
    have := POut.ok.inj h4
    exact Output.items.inj this
  subst hout
  have hsnd : ∀ v, Sum.inr v ∈
      mappings.map (fun pg => emitView parsed fields pg.1 pg.2) →
      v.name ∈ mappings.map Prod.snd := by
    intro v hv
    obtain ⟨pg, hpg, hemit⟩ := List.mem_map.mp hv
    obtain ⟨-, -, hname, -⟩ := emitView_inr_parts parsed fields pg.1 pg.2 v hemit
    rw [hname]
    exact List.mem_map.mpr ⟨pg, hpg, rfl⟩
  exact ⟨by simp, hsnd, fun hn v hv hc => hn (hc ▸ hsnd v hv)⟩

/-- Witness for C10 at a concrete schema with two declared views. -/
theorem C10_output_replaces_input_witness :
    ([Sum.inr ⟨[], "pub", "A", [⟨"", ⟨"x", 0⟩, EmittedTy.orig "T"⟩]⟩,
      Sum.inr ⟨[], "pub", "B", [⟨"", ⟨"x", 0⟩, EmittedTy.orig "T"⟩]⟩] :
        List (Sum (List Diagnostic) ViewStruct)).length =
      ([("a", "A"), ("b", "B")] : List (String × String)).length ∧
    (∀ v, Sum.inr v ∈ ([Sum.inr ⟨[], "pub", "A", [⟨"", ⟨"x", 0⟩, EmittedTy.orig "T"⟩]⟩,
      Sum.inr ⟨[], "pub", "B", [⟨"", ⟨"x", 0⟩, EmittedTy.orig "T"⟩]⟩] :
        List (Sum (List Diagnostic) ViewStruct)) →
      v.name ∈ ([("a", "A"), ("b", "B")] : List (String × String)).map Prod.snd) ∧
    ((⟨[], "pub", "S", [⟨some ⟨"x", 0⟩, "T", "", []⟩]⟩ : ItemStruct).name ∉
        ([("a", "A"), ("b", "B")] : List (String × String)).map Prod.snd →
      ∀ v, Sum.inr v ∈ ([Sum.inr ⟨[], "pub", "A", [⟨"", ⟨"x", 0⟩, EmittedTy.orig "T"⟩]⟩,
        Sum.inr ⟨[], "pub", "B", [⟨"", ⟨"x", 0⟩, EmittedTy.orig "T"⟩]⟩] :
          List (Sum (List Diagnostic) ViewStruct)) →
        v.name ≠ (⟨[], "pub", "S", [⟨some ⟨"x", 0⟩, "T", "", []⟩]⟩ : ItemStruct).name) :=
  C10_output_replaces_input
    [.ident "a", .eq, .ident "A", .comma, .ident "b", .eq, .ident "B"]
    (.structItem ⟨[], "pub", "S", [⟨some ⟨"x", 0⟩, "T", "", []⟩]⟩)
    ⟨[], "pub", "S", [⟨some ⟨"x", 0⟩, "T", "", []⟩]⟩
    [("a", "A"), ("b", "B")]
    [⟨[], ⟨"x", 0⟩, "T", "", VisDefault.Show⟩]
    [Sum.inr ⟨[], "pub", "A", [⟨"", ⟨"x", 0⟩, EmittedTy.orig "T"⟩]⟩,
     Sum.inr ⟨[], "pub", "B", [⟨"", ⟨"x", 0⟩, EmittedTy.orig "T"⟩]⟩]
    (by decide) rfl (by decide) (by decide)

end Structur
